import Mathlib

/-!
Verification of the content sanitization pipeline of the ai-news-daily
static-site generator (source file: generate.js).

The pipeline decides, per content item, whether its link is structurally
fabricated, generically unspecific, or thematically incoherent with its
title, and removes items whose link already appeared on a strictly
earlier date.  JavaScript strings are modelled as Lean String values
(lists of characters); the regular expressions of the source are
hand-compiled to executable Boolean predicates on character lists, each
annotated with the regex it implements.
-/

set_option maxRecDepth 4096

namespace AiNewsDaily

/-- ASCII lower-casing of a single character; characters outside A..Z are
unchanged (this is what JavaScript toLowerCase does on the character
classes the pipeline touches). -/
def asciiToLower (c : Char) : Char :=
  if 'A' ≤ c ∧ c ≤ 'Z' then Char.ofNat (c.toNat + 32) else c

/-- Whether a character is an ASCII lowercase letter, regex class [a-z]. -/
def isLowerAlpha (c : Char) : Bool :=
  decide ('a' ≤ c) && decide (c ≤ 'z')

/-- Whether a character is an ASCII letter. -/
def isAlphaChar (c : Char) : Bool :=
  isLowerAlpha c || (decide ('A' ≤ c) && decide (c ≤ 'Z'))

/-- Regex class [a-z0-9.] used for English word tokens in titles. -/
def isEngTokChar (c : Char) : Bool :=
  isLowerAlpha c || c.isDigit || c == '.'

/-- Boolean test that the first list is a prefix of the second. -/
def isPre : List Char → List Char → Bool
  | [], _ => true
  | _ :: _, [] => false
  | a :: as, b :: bs => a == b && isPre as bs

/-- Boolean test that needle occurs as a contiguous substring of the
haystack (JavaScript String.includes / an unanchored regex literal). -/
def strContainsSub (needle : List Char) : List Char → Bool
  | [] => isPre needle []
  | c :: rest => isPre needle (c :: rest) || strContainsSub needle rest

/-- Drop the last n characters. -/
def dropSuf (l : List Char) (n : Nat) : List Char := l.take (l.length - n)

/-- Boolean test that suf is a suffix of l. -/
def endsWithL (l suf : List Char) : Bool := isPre suf.reverse l.reverse

/-- FABRICATED_PATTERNS[0], the regex /\/comments\/x{3,}/i : the
lower-cased link contains "/comments/" followed by at least three x
characters (reddit placeholder slugs). -/
def fabPat1 (link : String) : Bool :=
  strContainsSub ("/comments/xxx".data) (link.data.map asciiToLower)

/-- FABRICATED_PATTERNS[1], the regex /\/item\?id=1234567[0-9]$/ : the
link ends with "/item?id=1234567" followed by one digit (HN sequential
fake IDs). -/
def fabPat2 (link : String) : Bool :=
  match link.data.reverse with
  | d :: rest => d.isDigit && isPre ("/item?id=1234567".data.reverse) rest
  | [] => false

/-- After stripping k trailing digits (reversed list), the remainder of
/\/status\/1[89]\d{16,17}$/ : one of the digits 8 or 9, preceded by the
literal "/status/1". -/
def statusTail3 : List Char → Bool
  | c :: rest => (c == '8' || c == '9') && isPre ("/status/1".data.reverse) rest
  | [] => false

/-- After stripping k trailing digits (reversed list), the remainder of
/\/status\/19[0-9]{10,11}$/ : the literal "/status/19". -/
def statusTail4 (rest : List Char) : Bool :=
  isPre ("/status/19".data.reverse) rest

/-- End-anchored pattern helper: the string ends with exactly k digits
whose left context (in reverse) satisfies tail. -/
def statusDigitsCheck (cs : List Char) (k : Nat) (tail : List Char → Bool) : Bool :=
  decide ((cs.reverse.take k).length = k) &&
  (cs.reverse.take k).all (fun c => c.isDigit) &&
  tail (cs.reverse.drop k)

/-- FABRICATED_PATTERNS[2], the regex /\/status\/1[89]\d{16,17}$/ (X
sequential fake status IDs). -/
def fabPat3 (link : String) : Bool :=
  statusDigitsCheck link.data 16 statusTail3 || statusDigitsCheck link.data 17 statusTail3

/-- FABRICATED_PATTERNS[3], the regex /\/status\/19[0-9]{10,11}$/ (X
short fake IDs). -/
def fabPat4 (link : String) : Bool :=
  statusDigitsCheck link.data 10 statusTail4 || statusDigitsCheck link.data 11 statusTail4

/-- The ordered fabricated-link pattern list of generate.js. -/
def FABRICATED_PATTERNS : List (String → Bool) := [fabPat1, fabPat2, fabPat3, fabPat4]

/-- The first-match loop over FABRICATED_PATTERNS in validateLink always
produces the same reason, so matching any pattern is what decides the
outcome. -/
def isFabricated (link : String) : Bool := FABRICATED_PATTERNS.any (fun p => p link)

/-- Consume a literal prefix, returning the remainder on success. -/
def stripPre (p l : List Char) : Option (List Char) :=
  if isPre p l then some (l.drop p.length) else none

/-- Consume the regex prefix ^https?:\/\/ : either "https://" or
"http://". -/
def stripHTTP (l : List Char) : Option (List Char) :=
  match stripPre ("https://".data) l with
  | some r => some r
  | none => stripPre ("http://".data) l

/-- The regex tail [^/]+\/?$ : a nonempty run of non-slash characters,
optionally closed by a single trailing slash. -/
def segTail (l : List Char) : Bool :=
  match l.reverse with
  | [] => false
  | '/' :: rr => !rr.isEmpty && rr.all (fun c => c != '/')
  | _ :: _ => l.all (fun c => c != '/')

/-- GENERIC_LINK_RULES[0], /^https?:\/\/(x\.com|twitter\.com)\/[^/]+\/?$/ :
X or Twitter profile pages (no /status/). -/
def genXTwitter (link : String) : Bool :=
  match stripHTTP link.data with
  | none => false
  | some r =>
    match stripPre ("x.com".data) r with
    | some r2 => (match r2 with | '/' :: rest => segTail rest | _ => false)
    | none =>
      match stripPre ("twitter.com".data) r with
      | some r2 => (match r2 with | '/' :: rest => segTail rest | _ => false)
      | none => false

/-- GENERIC_LINK_RULES[1], /^https?:\/\/(www\.)?reddit\.com\/r\/[^/]+\/?$/ :
subreddit homepages (no /comments/). -/
def genReddit (link : String) : Bool :=
  match stripHTTP link.data with
  | none => false
  | some r =>
    match stripPre ("reddit.com/r/".data) (match stripPre ("www.".data) r with
                                           | some x => x
                                           | none => r) with
    | some rest => segTail rest
    | none => false

/-- GENERIC_LINK_RULES[2], /^https?:\/\/news\.ycombinator\.com\/?$/ :
the HN homepage only. -/
def genHN (link : String) : Bool :=
  match stripHTTP link.data with
  | none => false
  | some r =>
    match stripPre ("news.ycombinator.com".data) r with
    | some rest => rest.isEmpty || rest == ['/']
    | none => false

/-- GENERIC_LINK_RULES[3], /^https?:\/\/huggingface\.co\/?$/ : the
Hugging Face homepage only. -/
def genHF (link : String) : Bool :=
  match stripHTTP link.data with
  | none => false
  | some r =>
    match stripPre ("huggingface.co".data) r with
    | some rest => rest.isEmpty || rest == ['/']
    | none => false

/-- GENERIC_LINK_RULES[4], /^https?:\/\/discord\.(gg|com\/invite)\// :
Discord invite links. -/
def genDiscord (link : String) : Bool :=
  match stripHTTP link.data with
  | none => false
  | some r =>
    match stripPre ("discord.".data) r with
    | none => false
    | some r2 => (stripPre ("gg/".data) r2).isSome || (stripPre ("com/invite/".data) r2).isSome

/-- Applicability of a generic-link rule: the string literal 'all' or an
explicit list of section names. -/
inductive Scope where
  | all : Scope
  | only : List String → Scope
deriving DecidableEq

/-- rule.sections === 'all' || rule.sections.includes(section). -/
def scopeMatch : Scope → String → Bool
  | Scope.all, _ => true
  | Scope.only ss, s => ss.contains s

/-- The ordered generic-link rule table of generate.js. -/
def GENERIC_LINK_RULES : List ((String → Bool) × Scope) :=
  [(genXTwitter, Scope.all), (genReddit, Scope.all), (genHN, Scope.all),
   (genHF, Scope.all), (genDiscord, Scope.only ["discord"])]

/-- The generic-link loop of validateLink: some rule whose scope covers
the section matches the link (first-match with a uniform reason, hence
any-match). -/
def isGeneric (link sectionName : String) : Bool :=
  GENERIC_LINK_RULES.any (fun rule => scopeMatch rule.2 sectionName && rule.1 link)

/-- The portion of a parsed URL the pipeline reads. -/
structure URLParts where
  pathname : String
deriving DecidableEq

/-- Regex scheme characters. -/
def isSchemeChar (c : Char) : Bool :=
  isAlphaChar c || c.isDigit || c == '+' || c == '-' || c == '.'

/-- Model of the JavaScript WHATWG URL constructor (new URL(url)),
restricted to hierarchical scheme://host/path URLs: a leading alphabetic
scheme, the literal "://", a nonempty host, and a pathname running to
the first '?' or '#' (defaulting to "/").  Any string outside this shape
fails to parse, returning none where the builtin throws. -/
def parseURL (url : String) : Option URLParts :=
  match url.data with
  | [] => none
  | c :: _ =>
    if !isAlphaChar c then none
    else
      match url.data.drop ((url.data.takeWhile isSchemeChar).length) with
      | ':' :: '/' :: '/' :: rest =>
        let host := rest.takeWhile (fun ch => ch != '/' && ch != '?' && ch != '#')
        if host.isEmpty then none
        else
          let path := (rest.drop host.length).takeWhile (fun ch => ch != '?' && ch != '#')
          some ⟨if path.isEmpty then "/" else String.mk path⟩
      | _ => none

/-- The stop-word set of extractSlugKeywords. -/
def stopWords : List String :=
  ["the", "a", "an", "in", "on", "at", "to", "for", "of", "and", "or", "is", "its",
   "by", "with", "from", "as", "that", "this", "how", "what", "why", "who", "when", "where",
   "www", "com", "net", "org", "html", "htm", "php", "news", "article", "articles", "blog",
   "post", "index", "page", "2026", "2025", "02", "01", "03", "04", "05", "06", "07", "08", "09",
   "10", "11", "12", "13", "14", "15", "16", "17", "18", "19", "20", "21", "22", "23", "24", "25",
   "26", "27", "28", "29", "30", "31", "feb", "mar", "jan", "apr", "may", "jun", "jul", "aug", "sep",
   "oct", "nov", "dec", "technology", "tech"]

/-- JavaScript String.split('-') : splits on every hyphen, keeping empty
fragments. -/
def splitDash : List Char → List (List Char)
  | [] => [[]]
  | c :: rest =>
    if c == '-' then [] :: splitDash rest
    else
      match splitDash rest with
      | h :: t => (c :: h) :: t
      | [] => [[c]]

/-- The regex replace /\.(html?|php|aspx?)$/ with "" on an already
lower-cased path: strip one trailing document extension. -/
def stripDocExt (l : List Char) : List Char :=
  if endsWithL l (".html".data) then dropSuf l 5
  else if endsWithL l (".htm".data) then dropSuf l 4
  else if endsWithL l (".php".data) then dropSuf l 4
  else if endsWithL l (".aspx".data) then dropSuf l 5
  else if endsWithL l (".asp".data) then dropSuf l 4
  else l

/-- extractSlugKeywords of generate.js: parse the URL (empty keyword
list if parsing fails), lower-case the pathname, strip a document
extension, turn '/' and '_' into '-', split on '-', and keep tokens
longer than 2 characters that are not stop words. -/
def extractSlugKeywords (url : String) : List String :=
  match parseURL url with
  | none => []
  | some u =>
    ((splitDash ((stripDocExt (u.pathname.data.map asciiToLower)).map
        (fun c => if c == '/' || c == '_' then '-' else c))).map
      (fun w => String.mk w)).filter
      (fun w => decide (2 < w.length) && !(stopWords.contains w))

/-- One left-to-right pass of the global regex /[a-z][a-z0-9.]+/g : the
state is the current candidate token (its first letter plus the reversed
run of continuation characters gathered so far). -/
def engAux : Option (Char × List Char) → List Char → List (List Char)
  | st, [] =>
    (match st with
     | some (f, acc) => if acc.isEmpty then [] else [f :: acc.reverse]
     | none => [])
  | st, c :: rest =>
    match st with
    | none =>
      if isLowerAlpha c then engAux (some (c, [])) rest else engAux none rest
    | some (f, acc) =>
      if isEngTokChar c then engAux (some (f, c :: acc)) rest
      else
        (if acc.isEmpty then [] else [f :: acc.reverse]) ++
        (if isLowerAlpha c then engAux (some (c, [])) rest else engAux none rest)

/-- The bilingual brand/concept dictionary of extractTitleKeywords, in
source order. -/
def brandMap : List (String × List String) :=
  [("阿里", ["alibaba", "ali", "qwen"]), ("腾讯", ["tencent", "wechat"]),
   ("百度", ["baidu"]), ("字节", ["bytedance", "tiktok", "douyin"]),
   ("华为", ["huawei"]), ("小米", ["xiaomi"]),
   ("月之暗面", ["moonshot", "kimi"]), ("Moonshot", ["moonshot", "kimi"]),
   ("智谱", ["zhipu", "glm", "chatglm"]),
   ("马斯克", ["musk", "elon", "tesla", "xai", "grok"]),
   ("黄仁勋", ["jensen", "huang", "nvidia"]),
   ("扎克伯格", ["zuckerberg", "meta"]),
   ("奥特曼", ["altman", "openai"]), ("Altman", ["altman", "openai"]),
   ("人才", ["talent", "hiring", "recruit"]),
   ("薪资", ["salary", "pay", "compensation", "wage"]),
   ("资本支出", ["capex", "spending", "capital"]),
   ("融资", ["funding", "raise", "billion", "valuation"]),
   ("芯片", ["chip", "gpu", "semiconductor", "nvidia"]),
   ("模型", ["model", "llm"]),
   ("开源", ["open", "source", "opensource"]),
   ("安全", ["security", "safe", "safety"]),
   ("独角兽", ["unicorn"]), ("收购", ["acquire", "acquisition", "merger"]),
   ("裁员", ["layoff", "cut"]), ("投资", ["invest", "investment", "funding"]),
   ("发布", ["release", "launch", "announce", "unveil"]), ("隐私", ["privacy"]),
   ("监管", ["regulation", "regulatory"]), ("搜索", ["search"]),
   ("浏览器", ["browser"]), ("编程", ["coding", "programming", "code"]),
   ("购物", ["shopping", "commerce"]), ("社交", ["social"]),
   ("军事", ["military", "defense", "pentagon"]),
   ("排行", ["ranking", "leaderboard", "benchmark"]),
   ("春节", ["spring", "festival", "lunar", "new", "year"]),
   ("内容", ["content"]), ("创作", ["creator", "creative"]),
   ("下沉", ["penetration", "adoption"]), ("点赞", ["praise", "endorse"]),
   ("估值", ["valuation"]), ("竞争", ["competition", "compete", "rival"]),
   ("争夺", ["battle", "race", "compete"]), ("加剧", ["intensify", "escalate"])]

/-- JavaScript hay.includes(needle). -/
def strIncludes (hay needle : String) : Bool := strContainsSub needle.data hay.data

/-- extractTitleKeywords of generate.js on a string title (the source
first returns [] on a falsy title): English word tokens of the
lower-cased title longer than 2 characters, followed by the dictionary
keywords of every brand-map phrase contained in the original title. -/
def extractTitleKeywordsStr (title : String) : List String :=
  if title == "" then []
  else
    (((engAux none (title.data.map asciiToLower)).map (fun w => String.mk w)).filter
      (fun w => decide (2 < w.length))) ++
    brandMap.foldl (fun acc p => if strIncludes title p.1 then acc ++ p.2 else acc) []

/-- The regex /\d{5,}/ : contains a run of five consecutive digits. -/
def hasRun5 : List Char → Bool
  | a :: b :: c :: d :: e :: rest =>
    (a.isDigit && b.isDigit && c.isDigit && d.isDigit && e.isDigit) ||
    hasRun5 (b :: c :: d :: e :: rest)
  | _ => false

/-- The regex /^\d+$/ : a nonempty all-digit token. -/
def isPureDigits (cs : List Char) : Bool := !cs.isEmpty && cs.all (fun c => c.isDigit)

/-- The regex /^[a-z0-9]{10,}$/ : a long alphanumeric hash-like token. -/
def isLongAlnumHash (cs : List Char) : Bool :=
  decide (10 ≤ cs.length) && cs.all (fun c => isLowerAlpha c || c.isDigit)

/-- One backtracking alternative of /^[a-z]{1,3}\d{4,}/ : j leading
lowercase letters followed immediately by at least four digits. -/
def shortAlphaLongDigits (cs : List Char) (j : Nat) : Bool :=
  decide (j + 4 ≤ cs.length) && (cs.take j).all isLowerAlpha &&
  ((cs.drop j).take 4).all (fun c => c.isDigit)

/-- The regex /^[a-z]{1,3}\d{4,}/ : short alphabetic prefix plus a long
digit run (CMS auto-IDs). -/
def isAutoIdTok (cs : List Char) : Bool :=
  shortAlphaLongDigits cs 1 || shortAlphaLongDigits cs 2 || shortAlphaLongDigits cs 3

/-- The regex /^detail$|^doc$|^roll$|^stock$/ : known CMS path segments. -/
def isCMSSegment (w : String) : Bool :=
  w == "detail" || w == "doc" || w == "roll" || w == "stock"

/-- The readability filter on slug keywords inside
checkTitleLinkCoherence: drop pure numbers, long alphanumeric hashes,
short-prefix auto-IDs, tokens with a 5+-digit run, and CMS path
segments. -/
def readableTok (w : String) : Bool :=
  !isPureDigits w.data && !isLongAlnumHash w.data && !isAutoIdTok w.data &&
  !hasRun5 w.data && !isCMSSegment w

/-- readableSlugKw = slugKw.filter(readableTok). -/
def readableSlug (kws : List String) : List String := kws.filter readableTok

/-- The overlap test on one (slug keyword, title keyword) pair: both of
length at least 4 and one a substring of the other. -/
def pairMatch (sk tk : String) : Bool :=
  decide (4 ≤ sk.length) && decide (4 ≤ tk.length) &&
  (strIncludes sk tk || strIncludes tk sk)

/-- The nested counting loop of checkTitleLinkCoherence, verbatim as
left folds. -/
def overlapFold (sks tks : List String) : Nat :=
  sks.foldl (fun acc sk =>
    tks.foldl (fun acc2 tk => if pairMatch sk tk then acc2 + 1 else acc2) acc) 0

/-- The number of matching (slug keyword, title keyword) pairs, stated
as a count over all pairs. -/
def overlapCount (sks tks : List String) : Nat :=
  (sks.map (fun sk => tks.countP (fun tk => pairMatch sk tk))).sum

/-- JavaScript truthiness of an optional string: present and nonempty. -/
def truthyOpt : Option String → Bool
  | none => false
  | some s => !(s == "")

/-- Result record of checkTitleLinkCoherence. -/
structure CoherenceResult where
  coherent : Bool
  reason : Option String
deriving DecidableEq

/-- The diagnostic string produced on a title-link mismatch: the title
truncated to 50 characters and the first 6 slug keywords. -/
def mismatchReason (title : String) (slugKw : List String) : String :=
  "title-link mismatch: title=\"" ++ String.mk (title.data.take 50) ++
  "\" has no keyword overlap with URL slug [" ++
  String.intercalate "," (slugKw.take 6) ++ "]"

/-- checkTitleLinkCoherence of generate.js, with the let-bound keyword
lists of the source written out at each use. -/
def checkTitleLinkCoherence (title link : Option String) : CoherenceResult :=
  if !truthyOpt title || !truthyOpt link then ⟨true, none⟩
  else if (extractSlugKeywords (link.getD "")).length < 3 then ⟨true, none⟩
  else if (extractTitleKeywordsStr (title.getD "")).length < 1 then ⟨true, none⟩
  else if (readableSlug (extractSlugKeywords (link.getD ""))).length < 2 then ⟨true, none⟩
  else if overlapFold (readableSlug (extractSlugKeywords (link.getD "")))
            (extractTitleKeywordsStr (title.getD "")) = 0 then
    ⟨false, some (mismatchReason (title.getD "") (extractSlugKeywords (link.getD "")))⟩
  else ⟨true, none⟩

/-- Result record of validateLink. -/
structure ValidationResult where
  valid : Bool
  reason : Option String
deriving DecidableEq

/-- validateLink of generate.js: missing link, then the fabricated
pattern loop, then the scoped generic-link rule loop. -/
def validateLink (link : Option String) (sectionName : String) : ValidationResult :=
  if !truthyOpt link then ⟨false, some "missing link"⟩
  else if isFabricated (link.getD "") then
    ⟨false, some ("fabricated link: " ++ link.getD "")⟩
  else if isGeneric (link.getD "") sectionName then
    ⟨false, some ("generic link (not specific content): " ++ link.getD "")⟩
  else ⟨true, none⟩

/-- A content item, restricted to the fields the sanitization pipeline
reads.  Every field is optional, as in the loosely-typed JSON records. -/
structure Item where
  title : Option String
  name : Option String
  link : Option String
deriving DecidableEq

/-- JavaScript a || b on optional strings: b when a is absent or empty. -/
def jsOr (a b : Option String) : Option String := if truthyOpt a then a else b

/-- A removal record: identifying title (item.title || item.name) and
the reason produced by the failed check. -/
structure RemovalRecord where
  title : Option String
  reason : Option String
deriving DecidableEq

/-- The per-item body of the filterSection loop: link validation first,
then the title-link coherence check, each short-circuiting into a
removal record. -/
def processItem (it : Item) (sectionName : String) : Item ⊕ RemovalRecord :=
  if !(validateLink it.link sectionName).valid then
    Sum.inr ⟨jsOr it.title it.name, (validateLink it.link sectionName).reason⟩
  else if !(checkTitleLinkCoherence (jsOr it.title it.name) it.link).coherent then
    Sum.inr ⟨jsOr it.title it.name, (checkTitleLinkCoherence (jsOr it.title it.name) it.link).reason⟩
  else Sum.inl it

/-- filterSection of generate.js: partition the items of a section into
kept items and removal records, preserving order. -/
def filterSection : List Item → String → List Item × List RemovalRecord
  | [], _ => ([], [])
  | it :: rest, sectionName =>
    match processItem it sectionName with
    | Sum.inl kept => (kept :: (filterSection rest sectionName).1, (filterSection rest sectionName).2)
    | Sum.inr r => ((filterSection rest sectionName).1, r :: (filterSection rest sectionName).2)

/-- The cross-date dedup condition of sanitizeData:
previousLinks && item.link && previousLinks.has(item.link). -/
def dupTest (previousLinks : List String) (it : Item) : Bool :=
  truthyOpt it.link && previousLinks.contains (it.link.getD "")

/-- The removal record produced by cross-date dedup. -/
def dupRecord (it : Item) : RemovalRecord :=
  ⟨jsOr it.title it.name, some ("duplicate link from previous date: " ++ it.link.getD "")⟩

/-- The cross-date dedup loop of sanitizeData over the kept items of a
section; previousLinks is optional exactly as in the source. -/
def dedupPass : List Item → Option (List String) → List Item × List RemovalRecord
  | [], _ => ([], [])
  | it :: rest, prev =>
    match prev with
    | some previousLinks =>
      if dupTest previousLinks it then
        ((dedupPass rest prev).1, dupRecord it :: (dedupPass rest prev).2)
      else (it :: (dedupPass rest prev).1, (dedupPass rest prev).2)
    | none => (it :: (dedupPass rest prev).1, (dedupPass rest prev).2)

/-- One section of sanitizeData: structural/coherence filtering, then
cross-date dedup, with the removal lists merged in that order. -/
def sanitizeSection (items : List Item) (sectionName : String)
    (prev : Option (List String)) : List Item × List RemovalRecord :=
  ((dedupPass (filterSection items sectionName).1 prev).1,
   (filterSection items sectionName).2 ++ (dedupPass (filterSection items sectionName).1 prev).2)

/-- The per-section step of sanitizeData: empty sections are skipped,
and the section is reassigned (and reported) only when something was
removed. -/
def sectionStep (items : List Item) (sectionName : String)
    (prev : Option (List String)) : List Item × List (String × List RemovalRecord) :=
  if items.isEmpty then (items, [])
  else if (sanitizeSection items sectionName prev).2.isEmpty then (items, [])
  else ((sanitizeSection items sectionName prev).1,
        [(sectionName, (sanitizeSection items sectionName prev).2)])

/-- A daily data object, restricted to the twelve sections sanitizeData
iterates over (an absent section and an empty one are treated alike by
the source, so both are the empty list). -/
structure DailyData where
  insights : List Item
  newsletter : List Item
  papers : List Item
  xPosts : List Item
  discord : List Item
  github : List Item
  hn : List Item
  reddit : List Item
  tools : List Item
  agent : List Item
  siliconValley : List Item
  mainlandChina : List Item
deriving DecidableEq

/-- sanitizeData of generate.js: sanitize the twelve sections in source
order, returning the updated data object and the removal report. -/
def sanitizeData (data : DailyData) (previousLinks : Option (List String)) :
    DailyData × List (String × List RemovalRecord) :=
  ({ insights := (sectionStep data.insights "insights" previousLinks).1
     newsletter := (sectionStep data.newsletter "newsletter" previousLinks).1
     papers := (sectionStep data.papers "papers" previousLinks).1
     xPosts := (sectionStep data.xPosts "xPosts" previousLinks).1
     discord := (sectionStep data.discord "discord" previousLinks).1
     github := (sectionStep data.github "github" previousLinks).1
     hn := (sectionStep data.hn "hn" previousLinks).1
     reddit := (sectionStep data.reddit "reddit" previousLinks).1
     tools := (sectionStep data.tools "tools" previousLinks).1
     agent := (sectionStep data.agent "agent" previousLinks).1
     siliconValley := (sectionStep data.siliconValley "siliconValley" previousLinks).1
     mainlandChina := (sectionStep data.mainlandChina "mainlandChina" previousLinks).1 },
   (sectionStep data.insights "insights" previousLinks).2 ++
   (sectionStep data.newsletter "newsletter" previousLinks).2 ++
   (sectionStep data.papers "papers" previousLinks).2 ++
   (sectionStep data.xPosts "xPosts" previousLinks).2 ++
   (sectionStep data.discord "discord" previousLinks).2 ++
   (sectionStep data.github "github" previousLinks).2 ++
   (sectionStep data.hn "hn" previousLinks).2 ++
   (sectionStep data.reddit "reddit" previousLinks).2 ++
   (sectionStep data.tools "tools" previousLinks).2 ++
   (sectionStep data.agent "agent" previousLinks).2 ++
   (sectionStep data.siliconValley "siliconValley" previousLinks).2 ++
   (sectionStep data.mainlandChina "mainlandChina" previousLinks).2)

/-- Strict lexicographic comparison of character lists by code point,
the order JavaScript string comparison uses on the ASCII date labels. -/
def listLtb : List Char → List Char → Bool
  | [], [] => false
  | [], _ :: _ => true
  | _ :: _, [] => false
  | a :: as, b :: bs => decide (a < b) || (a == b && listLtb as bs)

/-- JavaScript-style strict string comparison a < b. -/
def strLtb (a b : String) : Bool := listLtb a.data b.data

/-- The previous-links loop of main: walk the date-sorted corpus and
collect link sets until the first date not strictly before the target
(the break on d >= dateStr in the source). -/
def buildPreviousLinks : List (String × List String) → String → List String
  | [], _ => []
  | (d, links) :: rest, dateStr =>
    if strLtb d dateStr then links ++ buildPreviousLinks rest dateStr else []

/-- The corpus is traversed in strictly ascending date order (main sorts
the file names before the loop). -/
def datesSortedByKey : List (String × List String) → Bool
  | [] => true
  | [_] => true
  | a :: b :: rest => strLtb a.1 b.1 && datesSortedByKey (b :: rest)

/-- An item passes both per-item checks of filterSection. -/
def passes (it : Item) (sectionName : String) : Bool :=
  (validateLink it.link sectionName).valid &&
  (checkTitleLinkCoherence (jsOr it.title it.name) it.link).coherent

/-- The dedup condition against an optional previous-links set. -/
def dupB (prev : Option (List String)) (it : Item) : Bool :=
  match prev with
  | none => false
  | some previousLinks => dupTest previousLinks it

/-! ### Helper lemmas -/

theorem isPre_append (a b : List Char) : isPre a (a ++ b) = true := by
  induction a with
  | nil => rfl
  | cons x xs ih => simp [isPre, ih]

theorem listLtb_trans {a b c : List Char} (hab : listLtb a b = true)
    (hbc : listLtb b c = true) : listLtb a c = true := by
  induction a generalizing b c with
  | nil =>
    cases b with
    | nil => simp [listLtb] at hab
    | cons y ys =>
      cases c with
      | nil => simp [listLtb] at hbc
      | cons z zs => simp [listLtb]
  | cons x xs ih =>
    cases b with
    | nil => simp [listLtb] at hab
    | cons y ys =>
      cases c with
      | nil => simp [listLtb] at hbc
      | cons z zs =>
        simp only [listLtb, Bool.or_eq_true, Bool.and_eq_true, decide_eq_true_eq,
          beq_iff_eq] at hab hbc ⊢
        rcases hab with h1 | ⟨hxy, h1⟩
        · rcases hbc with h2 | ⟨hyz, h2⟩
          · exact Or.inl (lt_trans h1 h2)
          · subst hyz; exact Or.inl h1
        · subst hxy
          rcases hbc with h2 | ⟨hyz, h2⟩
          · exact Or.inl h2
          · subst hyz; exact Or.inr ⟨rfl, ih h1 h2⟩

theorem strLtb_trans {a b c : String} (hab : strLtb a b = true)
    (hbc : strLtb b c = true) : strLtb a c = true :=
  listLtb_trans hab hbc

theorem datesSorted_cons {d : String} {ls : List String}
    {rest : List (String × List String)}
    (h : datesSortedByKey ((d, ls) :: rest) = true) :
    datesSortedByKey rest = true ∧ ∀ p ∈ rest, strLtb d p.1 = true := by
  induction rest generalizing d ls with
  | nil => exact ⟨rfl, by simp⟩
  | cons q rs ih =>
    obtain ⟨qd, qls⟩ := q
    simp only [datesSortedByKey, Bool.and_eq_true] at h
    obtain ⟨hdq, hrest⟩ := h
    obtain ⟨hrs, hall⟩ := ih hrest
    refine ⟨hrest, ?_⟩
    intro p hp
    rcases List.mem_cons.mp hp with rfl | hp'
    · exact hdq
    · exact strLtb_trans hdq (hall p hp')

theorem mem_buildPreviousLinks {byDate : List (String × List String)}
    {D : String} (hs : datesSortedByKey byDate = true) (lnk : String) :
    lnk ∈ buildPreviousLinks byDate D ↔
      ∃ p, p ∈ byDate ∧ strLtb p.1 D = true ∧ lnk ∈ p.2 := by
  induction byDate with
  | nil => simp [buildPreviousLinks]
  | cons hd rest ih =>
    obtain ⟨d, ls⟩ := hd
    obtain ⟨hrest, hgt⟩ := datesSorted_cons hs
    by_cases hlt : strLtb d D = true
    · rw [buildPreviousLinks, if_pos hlt]
      simp only [List.mem_append, ih hrest]
      constructor
      · rintro (h | ⟨p, hp, hpd, hl⟩)
        · exact ⟨(d, ls), List.mem_cons_self _ _, hlt, h⟩
        · exact ⟨p, List.mem_cons_of_mem _ hp, hpd, hl⟩
      · rintro ⟨p, hp, hpd, hl⟩
        rcases List.mem_cons.mp hp with rfl | hp'
        · exact Or.inl hl
        · exact Or.inr ⟨p, hp', hpd, hl⟩
    · rw [buildPreviousLinks, if_neg hlt]
      simp only [List.not_mem_nil, false_iff]
      rintro ⟨p, hp, hpd, hl⟩
      rcases List.mem_cons.mp hp with rfl | hp'
      · exact hlt hpd
      · exact hlt (strLtb_trans (hgt p hp') hpd)

theorem processItem_inl {it : Item} {n : String} :
    processItem it n = Sum.inl it ↔ passes it n = true := by
  cases hv : (validateLink it.link n).valid <;>
    cases hc : (checkTitleLinkCoherence (jsOr it.title it.name) it.link).coherent <;>
      simp [processItem, passes, hv, hc]

theorem processItem_inr {it : Item} {n : String} (h : passes it n = false) :
    ∃ r, processItem it n = Sum.inr r := by
  cases hv : (validateLink it.link n).valid <;>
    cases hc : (checkTitleLinkCoherence (jsOr it.title it.name) it.link).coherent <;>
      simp_all [processItem, passes, hv, hc]

theorem filterSection_fst (l : List Item) (n : String) :
    (filterSection l n).1 = l.filter (fun it => passes it n) := by
  induction l with
  | nil => rfl
  | cons it rest ih =>
    cases hp : passes it n
    · obtain ⟨r, hr⟩ := processItem_inr hp
      simp [filterSection, hr, ih, List.filter_cons, hp]
    · simp [filterSection, processItem_inl.mpr hp, ih, List.filter_cons, hp]

theorem filterSection_length (l : List Item) (n : String) :
    (filterSection l n).1.length + (filterSection l n).2.length = l.length := by
  induction l with
  | nil => rfl
  | cons it rest ih =>
    cases h : processItem it n <;> (simp [filterSection, h]; omega)

theorem filterSection_all_pass {l : List Item} {n : String}
    (h : ∀ it ∈ l, passes it n = true) : filterSection l n = (l, []) := by
  induction l with
  | nil => rfl
  | cons it rest ih =>
    have h1 : processItem it n = Sum.inl it :=
      processItem_inl.mpr (h it (List.mem_cons_self _ _))
    have h2 := ih (fun x hx => h x (List.mem_cons_of_mem _ hx))
    simp [filterSection, h1, h2]

theorem dedupPass_none (l : List Item) : dedupPass l none = (l, []) := by
  induction l with
  | nil => rfl
  | cons it rest ih => simp [dedupPass, ih]

theorem dedupPass_some (l : List Item) (ps : List String) :
    dedupPass l (some ps) =
      (l.filter (fun it => !dupTest ps it),
       (l.filter (fun it => dupTest ps it)).map dupRecord) := by
  induction l with
  | nil => rfl
  | cons it rest ih =>
    cases hd : dupTest ps it <;> simp [dedupPass, hd, ih, List.filter_cons]

theorem dedupPass_length (l : List Item) (prev : Option (List String)) :
    (dedupPass l prev).1.length + (dedupPass l prev).2.length = l.length := by
  induction l with
  | nil => rfl
  | cons it rest ih =>
    cases prev with
    | none => simp [dedupPass]; omega
    | some ps =>
      cases hd : dupTest ps it <;> simp [dedupPass, hd] <;> omega

theorem dedupPass_all_pass {l : List Item} {prev : Option (List String)}
    (h : ∀ it ∈ l, dupB prev it = false) : dedupPass l prev = (l, []) := by
  cases prev with
  | none => exact dedupPass_none l
  | some ps =>
    rw [dedupPass_some]
    have h1 : l.filter (fun it => !dupTest ps it) = l :=
      List.filter_eq_self.mpr (fun it hit => by simp [h it hit, dupB] at *; simp [h it hit])
    have h2 : l.filter (fun it => dupTest ps it) = [] :=
      List.filter_eq_nil_iff.mpr (fun it hit => by simp [show dupTest ps it = false from h it hit])
    rw [h1, h2]
    rfl

theorem sanitizeSection_fst (l : List Item) (n : String) (prev : Option (List String)) :
    (sanitizeSection l n prev).1 =
      (l.filter (fun it => passes it n)).filter (fun it => !dupB prev it) := by
  cases prev with
  | none =>
    simp only [sanitizeSection, dedupPass_none, filterSection_fst]
    exact (List.filter_eq_self.mpr (fun a _ => by simp [dupB])).symm
  | some ps =>
    simp only [sanitizeSection, dedupPass_some, filterSection_fst, dupB]

theorem sanitizeSection_length (l : List Item) (n : String) (prev : Option (List String)) :
    (sanitizeSection l n prev).1.length + (sanitizeSection l n prev).2.length = l.length := by
  have h1 := filterSection_length l n
  have h2 := dedupPass_length (filterSection l n).1 prev
  simp only [sanitizeSection, List.length_append]
  omega

theorem mem_sanitizeSection_fst {l : List Item} {n : String}
    {prev : Option (List String)} {it : Item}
    (h : it ∈ (sanitizeSection l n prev).1) :
    it ∈ l ∧ passes it n = true ∧ dupB prev it = false := by
  rw [sanitizeSection_fst] at h
  obtain ⟨h1, h2⟩ := List.mem_filter.mp h
  obtain ⟨h3, h4⟩ := List.mem_filter.mp h1
  exact ⟨h3, h4, by simpa using h2⟩

theorem sanitizeSection_all_pass {l : List Item} {n : String}
    {prev : Option (List String)}
    (h1 : ∀ it ∈ l, passes it n = true) (h2 : ∀ it ∈ l, dupB prev it = false) :
    sanitizeSection l n prev = (l, []) := by
  have hf := filterSection_all_pass h1
  have hd := dedupPass_all_pass h2
  simp [sanitizeSection, hf, hd]

theorem sanitizeSection_idem (l : List Item) (n : String) (prev : Option (List String)) :
    sanitizeSection (sanitizeSection l n prev).1 n prev =
      ((sanitizeSection l n prev).1, []) := by
  exact sanitizeSection_all_pass
    (fun it hit => (mem_sanitizeSection_fst hit).2.1)
    (fun it hit => (mem_sanitizeSection_fst hit).2.2)

theorem sectionStep_idem (l : List Item) (n : String) (prev : Option (List String)) :
    sectionStep (sectionStep l n prev).1 n prev = ((sectionStep l n prev).1, []) := by
  by_cases he : l.isEmpty
  · simp [sectionStep, he]
  · by_cases hr : (sanitizeSection l n prev).2.isEmpty
    · simp [sectionStep, he, hr]
    · have hout : (sectionStep l n prev).1 = (sanitizeSection l n prev).1 := by
        simp [sectionStep, he, hr]
      rw [hout]
      by_cases hfk : (sanitizeSection l n prev).1.isEmpty
      · simp [sectionStep, hfk]
      · rw [sectionStep, if_neg (by simpa using hfk)]
        rw [sanitizeSection_idem]
        simp

theorem sectionStep_fst_sublist (l : List Item) (n : String) (prev : Option (List String)) :
    (sectionStep l n prev).1.Sublist l := by
  by_cases he : l.isEmpty
  · simp [sectionStep, he]
  · by_cases hr : (sanitizeSection l n prev).2.isEmpty
    · simp [sectionStep, he, hr]
    · have hout : (sectionStep l n prev).1 = (sanitizeSection l n prev).1 := by
        simp [sectionStep, he, hr]
      rw [hout, sanitizeSection_fst]
      exact (List.filter_sublist _).trans (List.filter_sublist _)

theorem foldl_count {α : Type} (p : α → Bool) (l : List α) (acc : Nat) :
    l.foldl (fun a x => if p x then a + 1 else a) acc = acc + l.countP p := by
  induction l generalizing acc with
  | nil => simp
  | cons x xs ih =>
    cases hp : p x
    · simp [List.foldl_cons, hp, ih, List.countP_cons]
    · simp [List.foldl_cons, hp, ih, List.countP_cons]
      omega

theorem overlapFold_eq_aux (tks : List String) (sks : List String) (acc : Nat) :
    sks.foldl (fun a sk =>
        tks.foldl (fun a2 tk => if pairMatch sk tk then a2 + 1 else a2) a) acc =
      acc + (sks.map (fun sk => tks.countP (fun tk => pairMatch sk tk))).sum := by
  induction sks generalizing acc with
  | nil => simp
  | cons sk rest ih =>
    rw [List.foldl_cons, ih, foldl_count]
    have he : List.countP (pairMatch sk) tks =
        List.countP (fun tk => pairMatch sk tk) tks := rfl
    rw [he]
    simp only [List.map_cons, List.sum_cons]
    omega

theorem overlapFold_eq_overlapCount (sks tks : List String) :
    overlapFold sks tks = overlapCount sks tks := by
  rw [overlapFold, overlapCount, overlapFold_eq_aux, Nat.zero_add]

theorem fabPat2_suffix (pre : List Char) (d : Char) (hd : d.isDigit = true) :
    fabPat2 (String.mk (pre ++ ("/item?id=1234567".data ++ [d]))) = true := by
  have h : (String.mk (pre ++ ("/item?id=1234567".data ++ [d]))).data.reverse
      = d :: ("/item?id=1234567".data.reverse ++ pre.reverse) := by
    show (pre ++ ("/item?id=1234567".data ++ [d])).reverse = _
    rw [List.reverse_append, List.reverse_append]
    simp
  unfold fabPat2
  rw [h]
  show (d.isDigit && isPre ("/item?id=1234567".data.reverse)
    ("/item?id=1234567".data.reverse ++ pre.reverse)) = true
  rw [hd, isPre_append]
  rfl

/-! ### Claim theorems -/

/-- C1 (counterexample): the claim states that isFabricated returns
false on "https://news.ycombinator.com/item?id=12345678"; on the code it
returns true, because the pattern /\/item\?id=1234567[0-9]$/ matches the
id 12345678 (= "1234567" followed by the digit 8). -/
theorem hn_12345678_is_flagged :
    isFabricated "https://news.ycombinator.com/item?id=12345678" = true := by decide

/-- C1 (amended): isFabricated returns true on the reddit placeholder
link "https://reddit.com/r/foo/comments/xxxxx/bar", true on
"https://news.ycombinator.com/item?id=12345678" (the id lies inside the
flagged range 1234567[0-9]), and true on every link ending in
"/item?id=12345679". -/
theorem fabricated_link_examples :
    isFabricated "https://reddit.com/r/foo/comments/xxxxx/bar" = true ∧
    isFabricated "https://news.ycombinator.com/item?id=12345678" = true ∧
    ∀ pre : List Char, isFabricated (String.mk (pre ++ "/item?id=12345679".data)) = true := by
  refine ⟨by decide, by decide, ?_⟩
  intro pre
  have hsplit : ("/item?id=12345679".data : List Char) =
      "/item?id=1234567".data ++ ['9'] := by decide
  have h2 : fabPat2 (String.mk (pre ++ "/item?id=12345679".data)) = true := by
    rw [hsplit]
    exact fabPat2_suffix pre '9' (by decide)
  simp [isFabricated, FABRICATED_PATTERNS, h2]

/-- C8: a bare X/Twitter profile link "https://x.com/someuser" is
classified generic for every section, while the status link
"https://x.com/someuser/status/1234567890123456789" is generic for no
section. -/
theorem generic_x_profile_examples :
    (∀ s : String, isGeneric "https://x.com/someuser" s = true) ∧
    (∀ s : String, isGeneric "https://x.com/someuser/status/1234567890123456789" s = false) := by
  constructor
  · intro s
    have h1 : genXTwitter "https://x.com/someuser" = true := by decide
    simp [isGeneric, GENERIC_LINK_RULES, scopeMatch, h1]
  · intro s
    have h1 : genXTwitter "https://x.com/someuser/status/1234567890123456789" = false := by decide
    have h2 : genReddit "https://x.com/someuser/status/1234567890123456789" = false := by decide
    have h3 : genHN "https://x.com/someuser/status/1234567890123456789" = false := by decide
    have h4 : genHF "https://x.com/someuser/status/1234567890123456789" = false := by decide
    have h5 : genDiscord "https://x.com/someuser/status/1234567890123456789" = false := by decide
    simp [isGeneric, GENERIC_LINK_RULES, scopeMatch, h1, h2, h3, h4, h5]

/-- C2: the coherence check fails open — it returns coherent whenever
the title is absent/empty, the link is absent/empty, the slug-keyword
count is below 3, the title-keyword count is below 1, or fewer than 2
slug keywords survive the readability filter. -/
theorem coherence_fail_open (title link : Option String)
    (h : truthyOpt title = false ∨ truthyOpt link = false ∨
         (extractSlugKeywords (link.getD "")).length < 3 ∨
         (extractTitleKeywordsStr (title.getD "")).length < 1 ∨
         (readableSlug (extractSlugKeywords (link.getD ""))).length < 2) :
    (checkTitleLinkCoherence title link).coherent = true := by
  rw [checkTitleLinkCoherence]
  split_ifs with hg h3 h4 h5 h6 <;> try rfl
  exfalso
  rcases h with h | h | h | h | h
  · exact hg (by simp [h])
  · exact hg (by simp [h])
  · exact h3 h
  · exact h4 h
  · exact h5 h

/-- C2 (witness): a concrete instance with an absent title. -/
theorem coherence_fail_open_witness :
    truthyOpt none = false ∧
    (checkTitleLinkCoherence none (some "https://example.com/a-b-c")).coherent = true :=
  ⟨by decide, coherence_fail_open none (some "https://example.com/a-b-c")
    (Or.inl (by decide))⟩

/-- C9: a link whose URL fails to parse yields the empty slug-keyword
list (no exception: the embedding is a total function returning a
value), and the coherence check on such a link returns coherent. -/
theorem malformed_url_fail_closed (t : Option String) (l : String)
    (h : parseURL l = none) :
    extractSlugKeywords l = [] ∧
    (checkTitleLinkCoherence t (some l)).coherent = true := by
  have he : extractSlugKeywords l = [] := by rw [extractSlugKeywords, h]
  refine ⟨he, ?_⟩
  rw [checkTitleLinkCoherence]
  by_cases hg : (!truthyOpt t || !truthyOpt (some l)) = true
  · rw [if_pos hg]
  · rw [if_neg hg, if_pos (by simp [he])]

/-- C9 (witness): the string "not a url" does not parse. -/
theorem malformed_url_fail_closed_witness :
    parseURL "not a url" = none ∧
    extractSlugKeywords "not a url" = [] ∧
    (checkTitleLinkCoherence (some "some title") (some "not a url")).coherent = true :=
  ⟨by decide, malformed_url_fail_closed (some "some title") "not a url" (by decide)⟩

/-- C3: when title and link are both nonempty and the three keyword
thresholds are met, the coherence check is decided exactly by the count
of fuzzy-overlap pairs (readable slug keyword, title keyword, both of
length at least 4, one a substring of the other): zero overlap yields
incoherent with the diagnostic reason (truncated title plus a sample of
the slug keywords), any overlap yields coherent. -/
theorem coherence_overlap_decides (t l : String) (h1 : ¬t = "") (h2 : ¬l = "")
    (h3 : ¬(extractSlugKeywords l).length < 3)
    (h4 : ¬(extractTitleKeywordsStr t).length < 1)
    (h5 : ¬(readableSlug (extractSlugKeywords l)).length < 2) :
    checkTitleLinkCoherence (some t) (some l) =
      if overlapCount (readableSlug (extractSlugKeywords l)) (extractTitleKeywordsStr t) = 0
      then ⟨false, some (mismatchReason t (extractSlugKeywords l))⟩
      else ⟨true, none⟩ := by
  rw [checkTitleLinkCoherence]
  rw [if_neg (by simp [truthyOpt, h1, h2])]
  simp only [Option.getD_some]
  rw [if_neg h3, if_neg h4, if_neg h5, overlapFold_eq_overlapCount]

/-- C3 (witness): a concrete title and link meeting all thresholds with
zero overlap, hence flagged incoherent. -/
theorem coherence_overlap_decides_witness :
    ¬("hello world news" : String) = "" ∧
    ¬("https://example.com/local-weather-forecast-update" : String) = "" ∧
    ¬(extractSlugKeywords "https://example.com/local-weather-forecast-update").length < 3 ∧
    ¬(extractTitleKeywordsStr "hello world news").length < 1 ∧
    ¬(readableSlug (extractSlugKeywords "https://example.com/local-weather-forecast-update")).length < 2 ∧
    checkTitleLinkCoherence (some "hello world news")
        (some "https://example.com/local-weather-forecast-update") =
      if overlapCount
          (readableSlug (extractSlugKeywords "https://example.com/local-weather-forecast-update"))
          (extractTitleKeywordsStr "hello world news") = 0
      then ⟨false, some (mismatchReason "hello world news"
            (extractSlugKeywords "https://example.com/local-weather-forecast-update"))⟩
      else ⟨true, none⟩ :=
  ⟨by decide, by decide, by decide, by decide, by decide,
   coherence_overlap_decides "hello world news"
     "https://example.com/local-weather-forecast-update"
     (by decide) (by decide) (by decide) (by decide) (by decide)⟩

/-- C4: filterSection applies the checks in the order link presence,
fabricated-link detection, generic-link detection (scoped to the section
name), title-link coherence; each check short-circuits, so an item is
recorded with the reason of the first failing check and a missing link
is removed immediately with reason "missing link". -/
theorem filterSection_check_order (it : Item) (rest : List Item) (sectionName : String) :
    filterSection (it :: rest) sectionName =
      (if truthyOpt it.link = false then
        ((filterSection rest sectionName).1,
         ⟨jsOr it.title it.name, some "missing link"⟩ :: (filterSection rest sectionName).2)
      else if isFabricated (it.link.getD "") = true then
        ((filterSection rest sectionName).1,
         ⟨jsOr it.title it.name, some ("fabricated link: " ++ it.link.getD "")⟩ ::
           (filterSection rest sectionName).2)
      else if isGeneric (it.link.getD "") sectionName = true then
        ((filterSection rest sectionName).1,
         ⟨jsOr it.title it.name,
          some ("generic link (not specific content): " ++ it.link.getD "")⟩ ::
           (filterSection rest sectionName).2)
      else if (checkTitleLinkCoherence (jsOr it.title it.name) it.link).coherent = false then
        ((filterSection rest sectionName).1,
         ⟨jsOr it.title it.name, (checkTitleLinkCoherence (jsOr it.title it.name) it.link).reason⟩ ::
           (filterSection rest sectionName).2)
      else (it :: (filterSection rest sectionName).1, (filterSection rest sectionName).2)) := by
  cases hl : truthyOpt it.link
  · simp [filterSection, processItem, validateLink, hl]
  · cases hf : isFabricated (it.link.getD "")
    · cases hg : isGeneric (it.link.getD "") sectionName
      · cases hc : (checkTitleLinkCoherence (jsOr it.title it.name) it.link).coherent
        · simp [filterSection, processItem, validateLink, hl, hf, hg, hc]
        · simp [filterSection, processItem, validateLink, hl, hf, hg, hc]
      · simp [filterSection, processItem, validateLink, hl, hf, hg]
    · simp [filterSection, processItem, validateLink, hl, hf]

/-- C5: the cross-date dedup pass removes a surviving item exactly when
its link is in the supplied LinkHistory, with the
"duplicate link from previous date" removal record; the LinkHistory
built for date D collects exactly the links of dates sorting strictly
before D, so an item whose link appears on no strictly earlier date is
kept by dedup. -/
theorem dedup_duplicate_from_previous_dates
    (byDate : List (String × List String)) (D : String) (kept : List Item)
    (hs : datesSortedByKey byDate = true) :
    (∀ lnk, lnk ∈ buildPreviousLinks byDate D ↔
        ∃ p, p ∈ byDate ∧ strLtb p.1 D = true ∧ lnk ∈ p.2) ∧
    dedupPass kept (some (buildPreviousLinks byDate D)) =
      (kept.filter (fun it => !dupTest (buildPreviousLinks byDate D) it),
       (kept.filter (fun it => dupTest (buildPreviousLinks byDate D) it)).map dupRecord) ∧
    ∀ it, it ∈ kept →
      (∀ p, p ∈ byDate → strLtb p.1 D = true → ¬(it.link.getD "") ∈ p.2) →
      it ∈ (dedupPass kept (some (buildPreviousLinks byDate D))).1 := by
  refine ⟨fun lnk => mem_buildPreviousLinks hs lnk, dedupPass_some kept _, ?_⟩
  intro it hit hnot
  have hdt : dupTest (buildPreviousLinks byDate D) it = false := by
    rw [dupTest]
    cases ht : truthyOpt it.link
    · rfl
    · rw [Bool.true_and]
      by_cases hc : (buildPreviousLinks byDate D).contains (it.link.getD "") = true
      · exfalso
        have hmem : (it.link.getD "") ∈ buildPreviousLinks byDate D := by
          rw [← List.elem_iff]
          exact hc
        obtain ⟨p, hp, hpd, hl⟩ := (mem_buildPreviousLinks hs _).mp hmem
        exact hnot p hp hpd hl
      · simpa using hc
  rw [dedupPass_some]
  exact List.mem_filter.mpr ⟨hit, by simp [hdt]⟩

/-- C5 (witness): a corpus of two sorted dates; an item of the later
date whose link occurs only on that same date survives dedup. -/
theorem dedup_duplicate_from_previous_dates_witness :
    datesSortedByKey
        [("2026-02-26", ["https://a.example/x"]), ("2026-02-27", ["https://b.example/y"])] = true ∧
    (⟨some "t", none, some "https://b.example/y"⟩ : Item) ∈
      (dedupPass [⟨some "t", none, some "https://b.example/y"⟩]
        (some (buildPreviousLinks
          [("2026-02-26", ["https://a.example/x"]), ("2026-02-27", ["https://b.example/y"])]
          "2026-02-27"))).1 :=
  ⟨by decide,
   (dedup_duplicate_from_previous_dates
      [("2026-02-26", ["https://a.example/x"]), ("2026-02-27", ["https://b.example/y"])]
      "2026-02-27" [⟨some "t", none, some "https://b.example/y"⟩] (by decide)).2.2
     ⟨some "t", none, some "https://b.example/y"⟩ (by simp) (by decide)⟩

/-- C6: the kept items of a section, after structural/coherence
filtering and cross-date dedup, form a subsequence of the input items
(order is preserved), both for sanitizeSection and for the full
per-section step of sanitizeData. -/
theorem sanitize_order_preserved (items : List Item) (sectionName : String)
    (prev : Option (List String)) :
    (sanitizeSection items sectionName prev).1.Sublist items ∧
    (sectionStep items sectionName prev).1.Sublist items := by
  constructor
  · rw [sanitizeSection_fst]
    exact (List.filter_sublist _).trans (List.filter_sublist _)
  · exact sectionStep_fst_sublist items sectionName prev

/-- C7: sanitizeData is idempotent — re-sanitizing its output with the
same LinkHistory changes nothing and produces an empty report. -/
theorem sanitizeData_idempotent (d : DailyData) (prev : Option (List String)) :
    sanitizeData (sanitizeData d prev).1 prev = ((sanitizeData d prev).1, []) := by
  simp [sanitizeData, sectionStep_idem]

/-- C10: each input item of a section ends up on exactly one side of the
partition — the number of kept items plus the number of removal records
(structural/coherence and dedup together) equals the number of input
items. -/
theorem sanitize_partition (items : List Item) (sectionName : String)
    (prev : Option (List String)) :
    (sanitizeSection items sectionName prev).1.length +
      (sanitizeSection items sectionName prev).2.length = items.length :=
  sanitizeSection_length items sectionName prev

end AiNewsDaily
